import Mathlib

/-!
Shallow embedding of the Scrollio Playground turn-based game engine
(mobile-app/src/features/playground/games) and proofs of the specified
properties.  Each game module is translated from its logic.ts file.
JavaScript arrays become Lean lists; an array read that may yield
undefined is modelled with getD or a pattern match on get?; a transition
in which JavaScript would dereference undefined (a TypeError) is
modelled as an Option-returning function, with none standing for the
thrown exception.  Randomness (AI moves, next-location selection) is
passed in as an explicit argument, as the spec requires it to be
injectable.
-/

namespace Scrollio

/-- Player identity from playground/types.ts. -/
inductive Player where
  | P1
  | P2
deriving DecidableEq, Repr

/-- GameStatus from playground/types.ts. -/
inductive GameStatus where
  | in_progress
  | win
  | draw
  | lose
deriving DecidableEq, Repr

/-- GameMode from playground/types.ts. -/
inductive GameMode where
  | singleplayer
  | multiplayer
deriving DecidableEq, Repr

/-- Turn alternation helper, the ternary currentPlayer === P1 ? P2 : P1. -/
def otherPlayer : Player → Player
  | Player.P1 => Player.P2
  | Player.P2 => Player.P1

/-- Terminal statuses per the data model: everything but in_progress. -/
def GameStatus.isTerminal : GameStatus → Bool
  | GameStatus.in_progress => false
  | _ => true

namespace TicTacToe

/-- TicTacToe state from games/tictactoe: board of 9 cells, each null or a player. -/
structure State where
  board : List (Option Player)
  currentPlayer : Player
  status : GameStatus
  winner : Option Player
deriving DecidableEq, Repr

/-- WINNING_COMBINATIONS from the source, in source order. -/
def WINNING_COMBINATIONS : List (Nat × Nat × Nat) :=
  [(0, 1, 2), (3, 4, 5), (6, 7, 8),
   (0, 3, 6), (1, 4, 7), (2, 5, 8),
   (0, 4, 8), (2, 4, 6)]

/-- checkWinner: first combination fully owned by one player, scanning in
source order; board[a] out of range reads undefined, which is falsy. -/
def checkWinner (board : List (Option Player)) : Option Player :=
  WINNING_COMBINATIONS.findSome? fun combo =>
    match board.getD combo.1 none with
    | some p =>
      if board.getD combo.2.1 none = some p ∧ board.getD combo.2.2 none = some p then
        some p
      else
        none
    | none => none

/-- checkDraw: every cell is non-null. -/
def checkDraw (board : List (Option Player)) : Bool :=
  board.all fun cell => cell.isSome

/-- makeMove from games/tictactoe/logic.ts.  The source rejects when
status is not in_progress or board[index] !== null; an out-of-range index
reads undefined, which also differs from null, so the move proceeds
exactly when the cell exists and is null, i.e. get? index = some none. -/
def makeMove (s : State) (index : Nat) : State :=
  if s.status ≠ GameStatus.in_progress then s
  else
    match s.board[index]? with
    | some none =>
      let newBoard := s.board.set index (some s.currentPlayer)
      match checkWinner newBoard with
      | some w =>
        { board := newBoard, currentPlayer := s.currentPlayer,
          status := GameStatus.win, winner := some w }
      | none =>
        if checkDraw newBoard then
          { board := newBoard, currentPlayer := s.currentPlayer,
            status := GameStatus.draw, winner := none }
        else
          { board := newBoard, currentPlayer := otherPlayer s.currentPlayer,
            status := GameStatus.in_progress, winner := none }
    | _ => s

end TicTacToe

namespace FourInARow

/-- Number of rows, from games/fourinarow/logic.ts. -/
def ROWS : Nat := 6

/-- Number of columns, from games/fourinarow/logic.ts. -/
def COLS : Nat := 7

/-- FourInARow state: a ROWS x COLS matrix of null or a player. -/
structure State where
  board : List (List (Option Player))
  currentPlayer : Player
  status : GameStatus
  winner : Option Player
deriving DecidableEq, Repr

/-- Read board[r][c]; both levels default to the falsy undefined, modelled as
none (the grids built by the engine are always ROWS x COLS). -/
def cellAt (b : List (List (Option Player))) (r c : Nat) : Option Player :=
  (b.getD r []).getD c none

/-- Check a 4-cell line anchored at (r, c): board[r][c] must be truthy and
equal to the three other cells. -/
def winCell (b : List (List (Option Player)))
    (r c r1 c1 r2 c2 r3 c3 : Nat) : Option Player :=
  match cellAt b r c with
  | some p =>
    if cellAt b r1 c1 = some p ∧ cellAt b r2 c2 = some p ∧ cellAt b r3 c3 = some p then
      some p
    else
      none
  | none => none

/-- First hit of f over 0, 1, ..., n-1, modelling an early-return for loop. -/
def findSomeRange (n : Nat) (f : Nat → Option α) : Option α :=
  (List.range n).findSome? f

/-- checkWinner from games/fourinarow/logic.ts: horizontal, vertical,
down-right diagonal, then up-right diagonal scans, in source order. -/
def checkWinner (b : List (List (Option Player))) : Option Player :=
  (findSomeRange ROWS fun r => findSomeRange (COLS - 3) fun c =>
    winCell b r c r (c + 1) r (c + 2) r (c + 3)).orElse fun _ =>
  (findSomeRange (ROWS - 3) fun r => findSomeRange COLS fun c =>
    winCell b r c (r + 1) c (r + 2) c (r + 3) c).orElse fun _ =>
  (findSomeRange (ROWS - 3) fun r => findSomeRange (COLS - 3) fun c =>
    winCell b r c (r + 1) (c + 1) (r + 2) (c + 2) (r + 3) (c + 3)).orElse fun _ =>
  (findSomeRange ROWS fun r => findSomeRange (COLS - 3) fun c =>
    if 3 ≤ r then winCell b r c (r - 1) (c + 1) (r - 2) (c + 2) (r - 3) (c + 3) else none)

/-- checkDraw: the top row is full (pieces stack under gravity). -/
def checkDraw (b : List (List (Option Player))) : Bool :=
  (b.getD 0 []).all fun cell => cell.isSome

/-- Read of board[r][c] keeping the two levels explicit: some none is an
existing empty cell, some (some p) an occupied one, none a cell outside
the board structure. -/
def colCell (b : List (List (Option Player))) (r c : Nat) : Option (Option Player) :=
  b[r]?.bind fun row => row[c]?

/-- Downward scan for the lowest empty row of a column: the source loops r
from ROWS-1 down to 0 and stops at the first r with board[r][col] === null. -/
def lowestEmptyRowAux (b : List (List (Option Player))) (col : Nat) : Nat → Option Nat
  | 0 => none
  | r + 1 =>
    if colCell b r col = some none then some r
    else lowestEmptyRowAux b col r

/-- Lowest empty row of a column, none when the column has no empty cell
(the -1 sentinel of the source). -/
def lowestEmptyRow (b : List (List (Option Player))) (col : Nat) : Option Nat :=
  lowestEmptyRowAux b col ROWS

/-- makeMove from games/fourinarow/logic.ts: reject when terminal or the
column is full, otherwise drop into the lowest empty row and evaluate
winner and draw exactly as the source does. -/
def makeMove (s : State) (colIndex : Nat) : State :=
  if s.status ≠ GameStatus.in_progress then s
  else
    match lowestEmptyRow s.board colIndex with
    | none => s
    | some rowIndex =>
      let newBoard := s.board.set rowIndex
        ((s.board.getD rowIndex []).set colIndex (some s.currentPlayer))
      match checkWinner newBoard with
      | some w =>
        { board := newBoard, currentPlayer := s.currentPlayer,
          status := GameStatus.win, winner := some w }
      | none =>
        if checkDraw newBoard then
          { board := newBoard, currentPlayer := s.currentPlayer,
            status := GameStatus.draw, winner := none }
        else
          { board := newBoard, currentPlayer := otherPlayer s.currentPlayer,
            status := GameStatus.in_progress, winner := none }

end FourInARow

namespace RockPaperScissors

/-- RPSMove from games/rockpaperscissors/types. -/
inductive RPSMove where
  | rock
  | paper
  | scissors
deriving DecidableEq, Repr

/-- Result of determineWinner: Player or the literal draw. -/
inductive RPSOutcome where
  | P1
  | P2
  | draw
deriving DecidableEq, Repr

/-- RockPaperScissors state; board is constantly null in the source and is
omitted here. -/
structure State where
  currentPlayer : Player
  status : GameStatus
  winner : Option Player
  player1Move : Option RPSMove
  player2Move : Option RPSMove
  roundWinner : Option RPSOutcome
  mode : GameMode
deriving DecidableEq, Repr

/-- determineWinner from the source.  Although its TypeScript signature says
RPSMove, the P2 branch of makeMove calls it with the stored player1Move,
which may be null in an arbitrary state; null compares unequal to every
move, so the catch-all P2 answer applies, exactly as in JavaScript. -/
def determineWinner (p1 p2 : Option RPSMove) : RPSOutcome :=
  if p1 = p2 then RPSOutcome.draw
  else if (p1 = some RPSMove.rock ∧ p2 = some RPSMove.scissors)
       ∨ (p1 = some RPSMove.paper ∧ p2 = some RPSMove.rock)
       ∨ (p1 = some RPSMove.scissors ∧ p2 = some RPSMove.paper) then
    RPSOutcome.P1
  else
    RPSOutcome.P2

/-- makeMove from games/rockpaperscissors/logic.ts; aiMove is the
uniformly-random opponent move drawn in the singleplayer branch, passed in
explicitly because randomness is injected. -/
def makeMove (s : State) (move : RPSMove) (aiMove : RPSMove) : State :=
  if s.status ≠ GameStatus.in_progress then s
  else if s.currentPlayer = Player.P1 then
    if s.mode = GameMode.singleplayer then
      let result := determineWinner (some move) (some aiMove)
      { s with
        player1Move := some move,
        player2Move := some aiMove,
        roundWinner := some result,
        status := if result = RPSOutcome.draw then GameStatus.draw else GameStatus.win,
        winner := if result = RPSOutcome.draw then none
                  else if result = RPSOutcome.P1 then some Player.P1 else some Player.P2 }
    else
      { s with player1Move := some move, currentPlayer := Player.P2 }
  else
    let result := determineWinner s.player1Move (some move)
    { s with
      player2Move := some move,
      roundWinner := some result,
      status := if result = RPSOutcome.draw then GameStatus.draw else GameStatus.win,
      winner := if result = RPSOutcome.draw then none
                else if result = RPSOutcome.P1 then some Player.P1 else some Player.P2 }

end RockPaperScissors

namespace NumberGuess

/-- Feedback literal higher, lower or correct. -/
inductive Feedback where
  | higher
  | lower
  | correct
deriving DecidableEq, Repr

/-- One history entry: player, guess and result. -/
structure GuessEntry where
  player : Player
  guess : Int
  result : Feedback
deriving DecidableEq, Repr

/-- NumberGuess (NumberDuel) state from games/numberguess; board is
constantly null in the source and is omitted here. -/
structure State where
  currentPlayer : Player
  status : GameStatus
  winner : Option Player
  targetNumber : Int
  minRange : Int
  maxRange : Int
  attempts : Nat
  lastGuess : Option Int
  feedback : Option Feedback
  history : List GuessEntry
  mode : GameMode
deriving DecidableEq, Repr

/-- makeGuess from games/numberguess/logic.ts. -/
def makeGuess (s : State) (guess : Int) : State :=
  if s.status ≠ GameStatus.in_progress then s
  else
    let fb : Feedback :=
      if guess = s.targetNumber then Feedback.correct
      else if guess < s.targetNumber then Feedback.higher
      else Feedback.lower
    let status : GameStatus :=
      if guess = s.targetNumber then GameStatus.win else GameStatus.in_progress
    let winner : Option Player :=
      if guess = s.targetNumber then some s.currentPlayer else none
    let newHistory := s.history ++ [⟨s.currentPlayer, guess, fb⟩]
    let nextPlayer :=
      if status = GameStatus.in_progress ∧ s.mode = GameMode.multiplayer then
        otherPlayer s.currentPlayer
      else
        s.currentPlayer
    { s with
      attempts := s.attempts + 1,
      lastGuess := some guess,
      feedback := some fb,
      history := newHistory,
      status := status,
      winner := winner,
      currentPlayer := nextPlayer }

end NumberGuess

namespace TinyGeoGuess

/-- A quiz location from games/tinygeoguess/types. -/
structure Location where
  id : String
  name : String
  image : String
  options : List String
deriving DecidableEq, Repr

/-- Result literal of the last guess. -/
inductive GuessResult where
  | correct
  | wrong
deriving DecidableEq, Repr

/-- TinyGeoGuess state; board is constantly null in the source and is
omitted here. -/
structure State where
  currentPlayer : Player
  status : GameStatus
  winner : Option Player
  currentLocation : Location
  score : Nat
  round : Nat
  totalRounds : Nat
  lastResult : Option GuessResult
  mode : GameMode
deriving DecidableEq, Repr

/-- makeGuess from games/tinygeoguess/logic.ts; nextLocation is the random
pick from LOCATIONS made by the source, passed in explicitly because
randomness is injected. -/
def makeGuess (s : State) (guess : String) (nextLocation : Location) : State :=
  if s.status ≠ GameStatus.in_progress then s
  else
    let isCorrect := guess = s.currentLocation.name
    let newScore := if isCorrect then s.score + 1 else s.score
    let nextRound := s.round + 1
    let finished := s.totalRounds < nextRound
    { s with
      score := newScore,
      round := nextRound,
      lastResult := some (if isCorrect then GuessResult.correct else GuessResult.wrong),
      status := if finished then GameStatus.win else GameStatus.in_progress,
      winner := if finished then some Player.P1 else none,
      currentLocation := nextLocation }

end TinyGeoGuess

namespace WordGuess

/-- WordGuess (hangman) state from games/wordguess; the board field is an
unused empty array in the source and is omitted here.  Words and guessed
letters are lists of characters; remainingAttempts is an Int because the
source decrements a JavaScript number that can pass below zero. -/
structure State where
  currentPlayer : Player
  status : GameStatus
  winner : Option Player
  targetWord : List Char
  guessedLetters : List Char
  remainingAttempts : Int
  maxAttempts : Int
  mode : GameMode
deriving DecidableEq, Repr

/-- Model of String.prototype.toUpperCase restricted to the ASCII letters
the hangman word list uses. -/
def upperAscii (c : Char) : Char :=
  if 97 ≤ c.toNat ∧ c.toNat ≤ 122 then Char.ofNat (c.toNat - 32) else c

/-- makeGuess from games/wordguess/logic.ts: a no-op on repeated letters, a
wrong letter costs an attempt, win when every target character is guessed;
when the win and the loss condition hold together the loss assignment is
last and wins, while winner is set from isWin independently. -/
def makeGuess (s : State) (letter : Char) : State :=
  if s.status ≠ GameStatus.in_progress then s
  else
    let upperLetter := upperAscii letter
    if s.guessedLetters.contains upperLetter then s
    else
      let newGuessedLetters := s.guessedLetters ++ [upperLetter]
      let newRemainingAttempts :=
        if s.targetWord.contains upperLetter then s.remainingAttempts
        else s.remainingAttempts - 1
      let isWin := s.targetWord.all fun char => newGuessedLetters.contains char
      let isLoss := newRemainingAttempts ≤ 0
      { s with
        guessedLetters := newGuessedLetters,
        remainingAttempts := newRemainingAttempts,
        status := if isLoss then GameStatus.lose
                  else if isWin then GameStatus.win
                  else GameStatus.in_progress,
        winner := if isWin then some Player.P1 else none }

end WordGuess

namespace MemoryMatch

/-- One card from games/memorymatch/types. -/
structure Card where
  id : String
  value : String
  isFlipped : Bool
  isMatched : Bool
deriving DecidableEq, Repr

/-- MemoryMatch state from games/memorymatch/types. -/
structure State where
  board : List Card
  currentPlayer : Player
  status : GameStatus
  winner : Option Player
  movesCount : Nat
  flippedIndices : List Nat
  mode : GameMode
deriving DecidableEq, Repr

/-- flipCard from games/memorymatch/logic.ts.  The source reads
board[index].isFlipped after the status and two-cards guards; when index is
outside the board this dereferences undefined and throws, modelled as
none. -/
def flipCard (s : State) (index : Nat) : Option State :=
  if s.status ≠ GameStatus.in_progress then some s
  else if 2 ≤ s.flippedIndices.length then some s
  else
    match s.board[index]? with
    | none => none
    | some card =>
      if card.isFlipped ∨ card.isMatched then some s
      else
        some { s with
          board := s.board.set index { card with isFlipped := true },
          flippedIndices := s.flippedIndices ++ [index] }

/-- checkMatch from games/memorymatch/logic.ts.  With exactly two flipped
indices the source reads board[idx1].value and board[idx2].value, which
throws when either index is outside the board, modelled as none. -/
def checkMatch (s : State) : Option State :=
  match s.flippedIndices with
  | [idx1, idx2] =>
    match s.board[idx1]?, s.board[idx2]? with
    | some card1, some card2 =>
      let newBoard :=
        if card1.value = card2.value then
          (s.board.set idx1 { card1 with isMatched := true }).set idx2
            { card2 with isMatched := true }
        else
          (s.board.set idx1 { card1 with isFlipped := false }).set idx2
            { card2 with isFlipped := false }
      let allMatched := newBoard.all fun card => card.isMatched
      some { s with
        board := newBoard,
        flippedIndices := [],
        movesCount := s.movesCount + 1,
        status := if allMatched then GameStatus.win else GameStatus.in_progress,
        winner := if allMatched then some Player.P1 else none }
    | _, _ => none
  | _ => some s

end MemoryMatch

namespace Battleship

/-- GRID_SIZE from games/battleship/types.ts. -/
def GRID_SIZE : Nat := 6

/-- Battleship lifecycle phase. -/
inductive Phase where
  | setup_p1
  | setup_p2
  | in_progress
  | finished
deriving DecidableEq, Repr

/-- Ship orientation. -/
inductive Orientation where
  | horizontal
  | vertical
deriving DecidableEq, Repr

/-- Cell of a grid or shots grid. -/
inductive CellStatus where
  | empty
  | ship
  | hit
  | miss
deriving DecidableEq, Repr

/-- Recorded origin and orientation of a placed ship. -/
structure ShipPos where
  row : Nat
  col : Nat
  orientation : Orientation
deriving DecidableEq, Repr

/-- Ship record from games/battleship/types.ts. -/
structure Ship where
  id : String
  name : String
  size : Nat
  hits : Nat
  placed : Bool
  position : Option ShipPos
deriving DecidableEq, Repr

/-- Grid of cells. -/
abbrev Grid := List (List CellStatus)

/-- One side of the board: own grid, own ships, shots fired at the enemy. -/
structure PlayerBoardState where
  grid : Grid
  ships : List Ship
  shots : Grid
deriving DecidableEq, Repr

/-- Setup sub-state: selected ship and placement orientation. -/
structure SetupState where
  selectedShipId : Option String
  orientation : Orientation
deriving DecidableEq, Repr

/-- BattleshipState from games/battleship/types.ts; board is constantly
null in the source and is omitted here. -/
structure State where
  currentPlayer : Player
  status : GameStatus
  winner : Option Player
  mode : GameMode
  phase : Phase
  p1 : PlayerBoardState
  p2 : PlayerBoardState
  lastActionMessage : Option String
  setup : SetupState
deriving DecidableEq, Repr

/-- Scan of grid[row][c] for each c in cols: the source loop throws when
grid[row] is undefined (none here) and answers false at the first cell that
is not empty. -/
def scanH (grid : Grid) (row : Nat) : List Nat → Option Bool
  | [] => some true
  | c :: cs =>
    match grid[row]? with
    | none => none
    | some rowCells =>
      if rowCells[c]? = some CellStatus.empty then scanH grid row cs
      else some false

/-- Scan of grid[r][col] for each r in rows: the source loop throws when
grid[r] is undefined and answers false at the first cell that is not
empty. -/
def scanV (grid : Grid) (col : Nat) : List Nat → Option Bool
  | [] => some true
  | r :: rs =>
    match grid[r]? with
    | none => none
    | some rowCells =>
      if rowCells[col]? = some CellStatus.empty then scanV grid col rs
      else some false

/-- canPlaceShip from games/battleship/logic.ts: bounds check on the far
end, then a cell-emptiness scan; none models the TypeError thrown when a
scanned row of the grid does not exist. -/
def canPlaceShip (grid : Grid) (shipSize row col : Nat)
    (orientation : Orientation) : Option Bool :=
  match orientation with
  | Orientation.horizontal =>
    if GRID_SIZE < col + shipSize then some false
    else scanH grid row ((List.range shipSize).map fun i => col + i)
  | Orientation.vertical =>
    if GRID_SIZE < row + shipSize then some false
    else scanV grid col ((List.range shipSize).map fun i => row + i)

/-- Write v at grid[r][c], modelling the JavaScript assignment
grid[r][c] = v: reading grid[r] of a missing row throws a TypeError,
modelled as none.  A column at or beyond the end of an existing row is
dropped where JavaScript would extend the row with the value; the engine
validates every column it writes except in the clearing loop, whose
recorded columns were validated when the ship was placed. -/
def setCell (grid : Grid) (r c : Nat) (v : CellStatus) : Option Grid :=
  match grid[r]? with
  | none => none
  | some row => some (grid.set r (row.set c v))

/-- Sequential writes of v at (row, c) for each c in cols, propagating the
TypeError of a missing row. -/
def setCellsRow (grid : Grid) (row : Nat) (v : CellStatus) : List Nat → Option Grid
  | [] => some grid
  | c :: cs =>
    match setCell grid row c v with
    | none => none
    | some g => setCellsRow g row v cs

/-- Sequential writes of v at (r, col) for each r in rows, propagating the
TypeError of a missing row. -/
def setCellsCol (grid : Grid) (col : Nat) (v : CellStatus) : List Nat → Option Grid
  | [] => some grid
  | r :: rs =>
    match setCell grid r col v with
    | none => none
    | some g => setCellsCol g col v rs

/-- Write v to n consecutive cells rightwards from (row, col), modelling
the horizontal for loop of assignments. -/
def setCellsH (grid : Grid) (row col n : Nat) (v : CellStatus) : Option Grid :=
  setCellsRow grid row v ((List.range n).map fun i => col + i)

/-- Write v to n consecutive cells downwards from (row, col), modelling
the vertical for loop of assignments. -/
def setCellsV (grid : Grid) (row col n : Nat) (v : CellStatus) : Option Grid :=
  setCellsCol grid col v ((List.range n).map fun i => row + i)

/-- Position and value of the first ship with the given id, modelling
ships.findIndex. -/
def findShipIdx : List Ship → String → Option (Nat × Ship)
  | [], _ => none
  | sh :: rest, sid =>
    if sh.id = sid then some (0, sh)
    else (findShipIdx rest sid).map fun p => (p.1 + 1, p.2)

/-- Clear the cells previously occupied by a placed ship.  The source
writes newGrid[r][c + i] = empty (or newGrid[r + i][c]) without any
bounds check, so a recorded position whose rows lie outside the grid
throws a TypeError, modelled as none. -/
def clearOldPosition (grid : Grid) (ship : Ship) : Option Grid :=
  match ship.placed, ship.position with
  | true, some pos =>
    match pos.orientation with
    | Orientation.horizontal => setCellsH grid pos.row pos.col ship.size CellStatus.empty
    | Orientation.vertical => setCellsV grid pos.row pos.col ship.size CellStatus.empty
  | _, _ => some grid

/-- placeShip from games/battleship/logic.ts: guarded by phase and a
selected ship, clears a previously placed ship (move semantics),
re-validates with canPlaceShip, then writes the new cells and records the
position; none models the TypeError thrown by the unvalidated clearing
writes when the recorded position lies outside the grid, or by
canPlaceShip itself. -/
def placeShip (s : State) (row col : Nat) : Option State :=
  if s.phase ≠ Phase.setup_p1 ∧ s.phase ≠ Phase.setup_p2 then some s
  else
    match s.setup.selectedShipId with
    | none => some s
    | some sid =>
      let isP1 := s.phase = Phase.setup_p1
      let playerState := if isP1 then s.p1 else s.p2
      match findShipIdx playerState.ships sid with
      | none => some s
      | some (shipIndex, ship) =>
        match clearOldPosition playerState.grid ship with
        | none => none
        | some newGrid =>
          match canPlaceShip newGrid ship.size row col s.setup.orientation with
          | none => none
          | some false => some { s with lastActionMessage := some "Invalid placement!" }
          | some true =>
            match (match s.setup.orientation with
              | Orientation.horizontal =>
                setCellsH newGrid row col ship.size CellStatus.ship
              | Orientation.vertical =>
                setCellsV newGrid row col ship.size CellStatus.ship) with
            | none => none
            | some placedGrid =>
              let newShips := playerState.ships.set shipIndex
                { ship with
                  placed := true,
                  position := some ⟨row, col, s.setup.orientation⟩ }
              let newPlayerState :=
                { playerState with grid := placedGrid, ships := newShips }
              some (if isP1 then { s with p1 := newPlayerState, lastActionMessage := none }
                    else { s with p2 := newPlayerState, lastActionMessage := none })

/-- selectShip from games/battleship/logic.ts; note the source has no phase
guard. -/
def selectShip (s : State) (shipId : String) : State :=
  { s with setup := { s.setup with selectedShipId := some shipId } }

/-- toggleOrientation from games/battleship/logic.ts; note the source has
no phase guard. -/
def toggleOrientation (s : State) : State :=
  { s with setup :=
    { s.setup with orientation :=
      if s.setup.orientation = Orientation.horizontal then Orientation.vertical
      else Orientation.horizontal } }

/-- finishSetup from games/battleship/logic.ts. -/
def finishSetup (s : State) : State :=
  if s.phase = Phase.setup_p1 then
    if s.p1.ships.any fun sh => !sh.placed then
      { s with lastActionMessage := some "Place all ships first!" }
    else
      { s with
        phase := Phase.setup_p2,
        currentPlayer := Player.P2,
        lastActionMessage := some "Player 2: Place your ships!",
        setup := { selectedShipId := none, orientation := Orientation.horizontal } }
  else if s.phase = Phase.setup_p2 then
    if s.p2.ships.any fun sh => !sh.placed then
      { s with lastActionMessage := some "Place all ships first!" }
    else
      { s with
        phase := Phase.in_progress,
        currentPlayer := Player.P1,
        lastActionMessage := some "Game Started! Player 1 turn." }
  else s

/-- Does the fired coordinate fall inside the recorded span of the ship? -/
def shipContains (ship : Ship) (row col : Nat) : Bool :=
  match ship.position with
  | none => false
  | some pos =>
    match pos.orientation with
    | Orientation.horizontal =>
      decide (row = pos.row ∧ pos.col ≤ col ∧ col < pos.col + ship.size)
    | Orientation.vertical =>
      decide (col = pos.col ∧ pos.row ≤ row ∧ row < pos.row + ship.size)

/-- Display name of a player, for the action messages. -/
def playerName : Player → String
  | Player.P1 => "P1"
  | Player.P2 => "P2"

/-- Apostrophe character, for the sunk-ship message text. -/
def apos : String := String.singleton (Char.ofNat 39)

/-- Cell label such as A1: letter from the row, 1-based column. -/
def cellLabel (row col : Nat) : String :=
  String.singleton (Char.ofNat (65 + row)) ++ toString (col + 1)

/-- Name of the ship the shot sinks, keeping the last match as the source
assignment inside map does. -/
def sunkShipNameOf (ships : List Ship) (row col : Nat) : Option String :=
  ships.foldl
    (fun acc ship =>
      if shipContains ship row col ∧ ship.hits + 1 = ship.size then some ship.name
      else acc)
    none

/-- fireShot from games/battleship/logic.ts.  Rejects outside in_progress
and on an already-fired cell; reading shots[row] or the defender grid[row]
for a row outside the grid throws in the source, modelled as none.  A
column outside the row reads undefined, which differs from empty, so it is
rejected as already shot, as in the source.  Every ship whose span contains
the coordinate has its hit count incremented; the turn flips even on the
winning shot. -/
def fireShot (s : State) (row col : Nat) : Option State :=
  if s.phase ≠ Phase.in_progress then some s
  else
    let isP1 := s.currentPlayer = Player.P1
    let shooter := if isP1 then s.p1 else s.p2
    let target := if isP1 then s.p2 else s.p1
    match shooter.shots[row]? with
    | none => none
    | some shotsRow =>
      if shotsRow[col]? ≠ some CellStatus.empty then
        some { s with lastActionMessage := some "Already shot there!" }
      else
        match target.grid[row]? with
        | none => none
        | some gridRow =>
          let isHit := gridRow[col]? = some CellStatus.ship
          let shotResult := if isHit then CellStatus.hit else CellStatus.miss
          let newShooterShots := shooter.shots.set row (shotsRow.set col shotResult)
          let newTargetGrid :=
            if isHit then target.grid.set row (gridRow.set col CellStatus.hit)
            else target.grid
          let newTargetShips :=
            if isHit then
              target.ships.map fun ship =>
                if shipContains ship row col then { ship with hits := ship.hits + 1 }
                else ship
            else target.ships
          let sunkShipName := if isHit then sunkShipNameOf target.ships row col else none
          let allSunk := newTargetShips.all fun sh => sh.hits = sh.size
          let message :=
            if allSunk then
              playerName s.currentPlayer ++ " wins! All enemy ships sunk."
            else
              match sunkShipName with
              | some nm =>
                playerName s.currentPlayer ++ " sunk " ++
                  (if isP1 then "P2" else "P1") ++ apos ++ "s " ++ nm ++ "!"
              | none =>
                if isHit then
                  playerName s.currentPlayer ++ " hit a ship at " ++ cellLabel row col ++ "!"
                else
                  playerName s.currentPlayer ++ " missed at " ++ cellLabel row col ++ "."
          let newShooter := { shooter with shots := newShooterShots }
          let newTarget := { target with grid := newTargetGrid, ships := newTargetShips }
          some { s with
            phase := if allSunk then Phase.finished else s.phase,
            winner := if allSunk then some s.currentPlayer else s.winner,
            lastActionMessage := some message,
            currentPlayer := if isP1 then Player.P2 else Player.P1,
            p1 := if isP1 then newShooter else newTarget,
            p2 := if isP1 then newTarget else newShooter }

/-- Terminal condition for Battleship per the glossary: the finished
phase. -/
def isFinished (s : State) : Prop := s.phase = Phase.finished

/-- Board of the side to move, matching the isP1 selection in fireShot. -/
def attackerBoard (p : Player) (s : State) : PlayerBoardState :=
  if p = Player.P1 then s.p1 else s.p2

/-- Board of the side being shot at, matching the isP1 selection in
fireShot. -/
def defenderBoard (p : Player) (s : State) : PlayerBoardState :=
  if p = Player.P1 then s.p2 else s.p1

end Battleship

namespace TurkishWordle

/-- Per-letter feedback from games/turkishwordle/types.ts. -/
inductive LetterFeedback where
  | correct
  | present
  | absent
  | empty
deriving DecidableEq, Repr

/-- One evaluated letter of a guess row. -/
structure WordleLetter where
  char : Char
  feedback : LetterFeedback
deriving DecidableEq, Repr

/-- Wordle status: the turkishwordle types narrow GameStatus to
in_progress, win or lose. -/
inductive TWStatus where
  | in_progress
  | win
  | lose
deriving DecidableEq, Repr

/-- TurkishWordleState from games/turkishwordle/types.ts; board is
constantly null in the source and is omitted here; words are lists of
characters. -/
structure State where
  currentPlayer : Player
  winner : Option Player
  mode : GameMode
  targetWord : List Char
  guesses : List (List WordleLetter)
  maxAttempts : Nat
  currentAttemptIndex : Nat
  wordLength : Nat
  status : TWStatus
  currentGuess : List Char
  errorMessage : Option String
deriving DecidableEq, Repr

/-- Model of toLocaleUpperCase with the tr-TR locale, restricted to the
Turkish alphabet: dotted i uppercases to dotted capital İ, dotless ı to I,
the other lowercase Turkish letters to their usual capitals. -/
def turkishUpper (c : Char) : Char :=
  if c = 'i' then 'İ'
  else if c = 'ı' then 'I'
  else if c = 'ç' then 'Ç'
  else if c = 'ğ' then 'Ğ'
  else if c = 'ö' then 'Ö'
  else if c = 'ş' then 'Ş'
  else if c = 'ü' then 'Ü'
  else if 97 ≤ c.toNat ∧ c.toNat ≤ 122 then Char.ofNat (c.toNat - 32)
  else c

/-- Modelled from the spec: the fixed allowed-word dictionary
ALLOWED_WORDS_TR imported from games/turkishwordle/words, a file that is
not among the provided sources.  The spec only requires a fixed
dictionary of valid Turkish words that submitted guesses must belong to;
the list below stands for it, holding the spec example target ELMAS and a
few other five-letter words. -/
def ALLOWED_WORDS_TR : List (List Char) :=
  ["ELMAS".toList, "KALEM".toList, "KITAP".toList, "DENIZ".toList]

/-- isValidTurkishWord from games/turkishwordle/logic.ts: right length and
dictionary membership. -/
def isValidTurkishWord (word : List Char) (wordLength : Nat) : Bool :=
  if word.length ≠ wordLength then false
  else ALLOWED_WORDS_TR.contains word

/-- indexOf over the mutable pool of available target letters: first index
holding exactly the character (consumed entries are null and never
match). -/
def idxOf (c : Char) : List (Option Char) → Option Nat
  | [] => none
  | d :: rest =>
    if d = some c then some 0
    else (idxOf c rest).map fun j => j + 1

/-- Second pass of the duplicate-aware scoring.  Each pair carries a
guessed letter and whether pass one marked its position correct; avail is
the pool of still-available target letters with consumed slots null.  A
correct position keeps its mark; otherwise the first available equal
letter is consumed for a present mark, and absent is given when none is
left. -/
def pass2 : List (Char × Bool) → List (Option Char) → List WordleLetter
  | [], _ => []
  | (c, true) :: rest, avail => ⟨c, LetterFeedback.correct⟩ :: pass2 rest avail
  | (c, false) :: rest, avail =>
    match idxOf c avail with
    | some j => ⟨c, LetterFeedback.present⟩ :: pass2 rest (avail.set j none)
    | none => ⟨c, LetterFeedback.absent⟩ :: pass2 rest avail

/-- evaluateTurkishWordleGuess from games/turkishwordle/logic.ts for
equal-length inputs (the case every caller and every claim is about):
both words are locale-uppercased, pass one marks exact matches correct and
consumes those target letters, pass two walks the remaining positions
consuming available target letters for present marks. -/
def evaluateTurkishWordleGuess (targetWord guess : List Char) : List WordleLetter :=
  let targetLetters := targetWord.map turkishUpper
  let guessLetters := guess.map turkishUpper
  let zipped := guessLetters.zip targetLetters
  pass2 (zipped.map fun p => (p.1, decide (p.1 = p.2)))
    (zipped.map fun p => if p.1 = p.2 then none else some p.2)

/-- submitGuess from games/turkishwordle/logic.ts: uppercase the buffered
guess, reject a wrong length or a word outside the dictionary with an
error message and no other change, otherwise append the evaluated row,
consume the attempt and resolve win, loss or continuation. -/
def submitGuess (s : State) : State :=
  if s.status ≠ TWStatus.in_progress then s
  else
    let guess := s.currentGuess.map turkishUpper
    if guess.length ≠ s.wordLength then
      { s with errorMessage := some "Kelime çok kısa" }
    else if ¬ isValidTurkishWord guess s.wordLength then
      { s with errorMessage := some "Geçersiz kelime" }
    else
      let row := evaluateTurkishWordleGuess s.targetWord guess
      let newGuesses := s.guesses ++ [row]
      let isWin := guess = s.targetWord
      let isLose := ¬ isWin ∧ s.maxAttempts ≤ newGuesses.length
      { s with
        guesses := newGuesses,
        currentAttemptIndex := s.currentAttemptIndex + 1,
        status := if isWin then TWStatus.win
                  else if isLose then TWStatus.lose
                  else TWStatus.in_progress,
        currentGuess := [],
        errorMessage := none,
        winner := if isWin then some Player.P1 else none }

/-- Is the character one the input filter keeps: an ASCII letter or a
Turkish letter from the source character class? -/
def isAllowedInputChar (c : Char) : Bool :=
  decide ((65 ≤ c.toNat ∧ c.toNat ≤ 90) ∨ (97 ≤ c.toNat ∧ c.toNat ≤ 122)) ||
    ['Ç', 'ç', 'Ğ', 'ğ', 'I', 'ı', 'İ', 'i', 'Ö', 'ö', 'Ş', 'ş', 'Ü', 'ü'].contains c

/-- updateCurrentGuess from games/turkishwordle/logic.ts: strip characters
outside the Turkish letter class, uppercase, reject over-length input,
otherwise replace the buffer and clear the error. -/
def updateCurrentGuess (s : State) (text : List Char) : State :=
  if s.status ≠ TWStatus.in_progress then s
  else
    let cleaned := (text.filter isAllowedInputChar).map turkishUpper
    if s.wordLength < cleaned.length then s
    else { s with currentGuess := cleaned, errorMessage := none }

end TurkishWordle

namespace TurkishWordle

/-- Does this row entry award a scoring mark (correct or present) for the
letter ch? -/
def isScoringMark (ch : Char) (l : WordleLetter) : Bool :=
  l.char == ch && (l.feedback == LetterFeedback.correct
    || l.feedback == LetterFeedback.present)

/-- Number of correct or present marks the row awards to occurrences of
ch. -/
def markCount (ch : Char) (row : List WordleLetter) : Nat :=
  row.countP (isScoringMark ch)

end TurkishWordle

/-- Concrete NumberDuel state used by witnesses. -/
def numberDuelDemo : NumberGuess.State :=
  { currentPlayer := Player.P1, status := GameStatus.in_progress, winner := none,
    targetNumber := 42, minRange := 1, maxRange := 100, attempts := 0,
    lastGuess := none, feedback := none, history := [],
    mode := GameMode.multiplayer }

/-- Concrete in-progress WordleClone state whose buffered guess is too
short, used by witnesses. -/
def wordleRejectDemo : TurkishWordle.State :=
  { currentPlayer := Player.P1, winner := none, mode := GameMode.singleplayer,
    targetWord := "ELMAS".toList, guesses := [], maxAttempts := 6,
    currentAttemptIndex := 0, wordLength := 5,
    status := TurkishWordle.TWStatus.in_progress,
    currentGuess := "AB".toList, errorMessage := none }

/-- Concrete empty ConnectFour position used by witnesses. -/
def connectFourDemo : FourInARow.State :=
  { board := List.replicate FourInARow.ROWS (List.replicate FourInARow.COLS none),
    currentPlayer := Player.P1, status := GameStatus.in_progress, winner := none }

/-- Concrete Battleship position in the firing phase: the defender P2 has a
single size-2 destroyer at (0,0)-(0,1) already hit once at (0,0), so the
shot at (0,1) sinks the last unsunk ship.  Used by witnesses. -/
def battleshipDemo : Battleship.State :=
  { currentPlayer := Player.P1, status := GameStatus.in_progress, winner := none,
    mode := GameMode.multiplayer, phase := Battleship.Phase.in_progress,
    p1 :=
      { grid := List.replicate 6 (List.replicate 6 Battleship.CellStatus.empty),
        ships := [],
        shots := List.replicate 6 (List.replicate 6 Battleship.CellStatus.empty) },
    p2 :=
      { grid :=
          [Battleship.CellStatus.hit, Battleship.CellStatus.ship,
           Battleship.CellStatus.empty, Battleship.CellStatus.empty,
           Battleship.CellStatus.empty, Battleship.CellStatus.empty]
          :: List.replicate 5 (List.replicate 6 Battleship.CellStatus.empty),
        ships :=
          [{ id := "destroyer", name := "Destroyer", size := 2, hits := 1,
             placed := true,
             position := some ⟨0, 0, Battleship.Orientation.horizontal⟩ }],
        shots := List.replicate 6 (List.replicate 6 Battleship.CellStatus.empty) },
    lastActionMessage := none,
    setup := { selectedShipId := none,
               orientation := Battleship.Orientation.horizontal } }

/-- Concrete TicTacToe state already won by P1, used by witnesses. -/
def tictactoeWonDemo : TicTacToe.State :=
  { board := [some Player.P1, some Player.P1, some Player.P1,
              some Player.P2, some Player.P2, none, none, none, none],
    currentPlayer := Player.P1, status := GameStatus.win,
    winner := some Player.P1 }

/-- Concrete MemoryMatch state with two equal-valued flipped cards, used by
witnesses. -/
def memoryMatchDemo : MemoryMatch.State :=
  { board :=
      [{ id := "c0a", value := "X", isFlipped := true, isMatched := false },
       { id := "c0b", value := "X", isFlipped := true, isMatched := false },
       { id := "c1a", value := "Y", isFlipped := false, isMatched := false },
       { id := "c1b", value := "Y", isFlipped := false, isMatched := false }],
    currentPlayer := Player.P1, status := GameStatus.in_progress,
    winner := none, movesCount := 0, flippedIndices := [0, 1],
    mode := GameMode.singleplayer }

namespace TurkishWordle

theorem idxOf_spec (c : Char) :
    ∀ (avail : List (Option Char)) (j : Nat),
      idxOf c avail = some j → avail[j]? = some (some c) := by
  intro avail
  induction avail with
  | nil => intro j h; simp [idxOf] at h
  | cons d rest ih =>
    intro j h
    by_cases hd : d = some c
    · simp [idxOf, hd] at h
      subst h
      simp [hd]
    · simp [idxOf, hd] at h
      obtain ⟨j0, hj0, rfl⟩ := h
      simpa using ih j0 hj0

theorem avail_set_count_eq (ch c : Char) (hne : c ≠ ch) :
    ∀ (avail : List (Option Char)) (j : Nat),
      avail[j]? = some (some c) →
      (avail.set j none).countP (fun x => x == some ch)
        = avail.countP (fun x => x == some ch) := by
  intro avail
  induction avail with
  | nil => intro j h; simp at h
  | cons d rest ih =>
    intro j h
    cases j with
    | zero =>
      simp at h
      subst h
      simp [List.set, List.countP_cons, hne]
    | succ j0 =>
      simp at h
      simp [List.set, List.countP_cons, ih j0 h]

theorem avail_set_count_succ (ch : Char) :
    ∀ (avail : List (Option Char)) (j : Nat),
      avail[j]? = some (some ch) →
      (avail.set j none).countP (fun x => x == some ch) + 1
        = avail.countP (fun x => x == some ch) := by
  intro avail
  induction avail with
  | nil => intro j h; simp at h
  | cons d rest ih =>
    intro j h
    cases j with
    | zero =>
      simp at h
      subst h
      simp [List.set, List.countP_cons]
    | succ j0 =>
      simp at h
      have := ih j0 h
      simp [List.set, List.countP_cons]
      omega

theorem pass2_markCount_le (ch : Char) :
    ∀ (pairs : List (Char × Bool)) (avail : List (Option Char)),
      markCount ch (pass2 pairs avail)
        ≤ pairs.countP (fun p => p.1 == ch && p.2)
          + avail.countP (fun x => x == some ch) := by
  intro pairs
  induction pairs with
  | nil => intro avail; simp [pass2, markCount]
  | cons p rest ih =>
    intro avail
    obtain ⟨c, b⟩ := p
    cases b with
    | true =>
      by_cases hc : c = ch
      · subst hc
        simp [pass2, markCount, List.countP_cons, isScoringMark]
        have := ih avail
        simp [markCount] at this
        omega
      · simp [pass2, markCount, List.countP_cons, isScoringMark, hc]
        have := ih avail
        simp [markCount] at this
        omega
    | false =>
      cases hidx : idxOf c avail with
      | none =>
        by_cases hc : c = ch
        · subst hc
          simp [pass2, hidx, markCount, List.countP_cons, isScoringMark]
          have := ih avail
          simp [markCount] at this
          omega
        · simp [pass2, hidx, markCount, List.countP_cons, isScoringMark, hc]
          have := ih avail
          simp [markCount] at this
          omega
      | some j =>
        have hget := idxOf_spec c avail j hidx
        by_cases hc : c = ch
        · subst hc
          have hset := avail_set_count_succ c avail j hget
          simp [pass2, hidx, markCount, List.countP_cons, isScoringMark]
          have := ih (avail.set j none)
          simp [markCount] at this
          omega
        · have hset := avail_set_count_eq ch c hc avail j hget
          simp [pass2, hidx, markCount, List.countP_cons, isScoringMark, hc]
          have := ih (avail.set j none)
          simp [markCount] at this
          omega

theorem pass2_get?_char_correct :
    ∀ (pairs : List (Char × Bool)) (avail : List (Option Char)) (i : Nat)
      (c : Char) (b : Bool), pairs[i]? = some (c, b) →
      ∃ fb, (pass2 pairs avail)[i]? = some ⟨c, fb⟩
        ∧ (fb = LetterFeedback.correct ↔ b = true) := by
  intro pairs
  induction pairs with
  | nil => intro avail i c b h; simp at h
  | cons p rest ih =>
    intro avail i c b h
    cases i with
    | zero =>
      simp at h
      subst h
      cases b with
      | true => exact ⟨LetterFeedback.correct, by simp [pass2], by simp⟩
      | false =>
        cases hidx : idxOf c avail with
        | some j =>
          exact ⟨LetterFeedback.present, by simp [pass2, hidx], by simp⟩
        | none =>
          exact ⟨LetterFeedback.absent, by simp [pass2, hidx], by simp⟩
    | succ i0 =>
      simp at h
      obtain ⟨c0, b0⟩ := p
      cases b0 with
      | true =>
        obtain ⟨fb, hfb, hiff⟩ := ih avail i0 c b h
        exact ⟨fb, by simpa [pass2] using hfb, hiff⟩
      | false =>
        cases hidx : idxOf c0 avail with
        | some j =>
          obtain ⟨fb, hfb, hiff⟩ := ih (avail.set j none) i0 c b h
          exact ⟨fb, by simpa [pass2, hidx] using hfb, hiff⟩
        | none =>
          obtain ⟨fb, hfb, hiff⟩ := ih avail i0 c b h
          exact ⟨fb, by simpa [pass2, hidx] using hfb, hiff⟩

theorem zip_flag_avail_count (ch : Char) :
    ∀ (G T : List Char), G.length = T.length →
      ((G.zip T).map fun p => (p.1, decide (p.1 = p.2))).countP
          (fun p => p.1 == ch && p.2)
        + ((G.zip T).map fun p =>
            if p.1 = p.2 then (none : Option Char) else some p.2).countP
          (fun x => x == some ch)
        = T.count ch := by
  intro G
  induction G with
  | nil =>
    intro T h
    cases T with
    | nil => simp
    | cons t ts => simp at h
  | cons g gs ih =>
    intro T h
    cases T with
    | nil => simp at h
    | cons t ts =>
      simp at h
      have hih := ih ts h
      simp [List.countP_map] at hih
      by_cases hgt : g = t
      · subst hgt
        by_cases hch : g = ch
        · subst hch
          simp [List.zip_cons_cons, List.countP_cons, List.count_cons,
            List.countP_map]
          omega
        · simp [List.zip_cons_cons, List.countP_cons, List.count_cons,
            List.countP_map, hch, Ne.symm hch]
          omega
      · by_cases hch : t = ch
        · subst hch
          simp [List.zip_cons_cons, List.countP_cons, List.count_cons,
            List.countP_map, hgt]
          omega
        · simp [List.zip_cons_cons, List.countP_cons, List.count_cons,
            List.countP_map, hgt, hch]
          omega

theorem zip_getElem? :
    ∀ (G T : List Char) (i : Nat) (g t : Char),
      G[i]? = some g → T[i]? = some t → (G.zip T)[i]? = some (g, t) := by
  intro G
  induction G with
  | nil => intro T i g t hg ht; simp at hg
  | cons g0 gs ih =>
    intro T i g t hg ht
    cases T with
    | nil => simp at ht
    | cons t0 ts =>
      cases i with
      | zero =>
        simp at hg ht
        simp [List.zip_cons_cons, hg, ht]
      | succ i0 =>
        simp at hg ht
        simpa [List.zip_cons_cons] using ih ts i0 g t hg ht

end TurkishWordle

open TurkishWordle in
/-- C1: WordleClone duplicate-letter scoring.  For every target word and
every guess of the same length, evaluateTurkishWordleGuess (which
locale-uppercases both words) marks position i correct exactly when the
uppercased guess letter at i equals the uppercased target letter at i, and
for every letter the number of correct plus present marks awarded to
occurrences of that letter in the guess never exceeds the number of its
occurrences in the target; in particular for target ALMA and guess MAMA
the marks for A number exactly as many as the As in the target. -/
theorem wordle_duplicate_letter_scoring (targetWord guess : List Char)
    (h : guess.length = targetWord.length) :
    (∀ i : Nat, i < guess.length →
      ∃ l, (evaluateTurkishWordleGuess targetWord guess)[i]? = some l ∧
        (l.feedback = LetterFeedback.correct ↔
          (guess.map turkishUpper)[i]? = (targetWord.map turkishUpper)[i]?)) ∧
    (∀ ch : Char,
      markCount ch (evaluateTurkishWordleGuess targetWord guess)
        ≤ (targetWord.map turkishUpper).count ch) ∧
    markCount 'A' (evaluateTurkishWordleGuess "ALMA".toList "MAMA".toList)
      = ("ALMA".toList.map turkishUpper).count 'A' := by
  refine ⟨?_, ?_, by decide⟩
  · intro i hi
    have hgi : i < (guess.map turkishUpper).length := by simpa using hi
    have hti : i < (targetWord.map turkishUpper).length := by
      simpa using h ▸ hi
    have hgsome := List.getElem?_eq_getElem hgi
    have htsome := List.getElem?_eq_getElem hti
    have hzip := zip_getElem? (guess.map turkishUpper) (targetWord.map turkishUpper)
      i _ _ hgsome htsome
    have hpair :
        (((guess.map turkishUpper).zip (targetWord.map turkishUpper)).map
          fun p => (p.1, decide (p.1 = p.2)))[i]?
        = some ((guess.map turkishUpper)[i],
            decide ((guess.map turkishUpper)[i] = (targetWord.map turkishUpper)[i])) := by
      simp [List.getElem?_map, hzip]
    obtain ⟨fb, hrow, hiff⟩ := pass2_get?_char_correct
      (((guess.map turkishUpper).zip (targetWord.map turkishUpper)).map
        fun p : Char × Char => (p.1, decide (p.1 = p.2)))
      (((guess.map turkishUpper).zip (targetWord.map turkishUpper)).map
        fun p : Char × Char => if p.1 = p.2 then (none : Option Char) else some p.2)
      i _ _ hpair
    refine ⟨_, by simpa [evaluateTurkishWordleGuess] using hrow, ?_⟩
    rw [hgsome, htsome]
    simp only [hiff, decide_eq_true_eq, Option.some.injEq]
  · intro ch
    have hb := pass2_markCount_le ch
      (((guess.map turkishUpper).zip (targetWord.map turkishUpper)).map
        fun p : Char × Char => (p.1, decide (p.1 = p.2)))
      (((guess.map turkishUpper).zip (targetWord.map turkishUpper)).map
        fun p : Char × Char => if p.1 = p.2 then (none : Option Char) else some p.2)
    have hz := zip_flag_avail_count ch (guess.map turkishUpper)
      (targetWord.map turkishUpper) (by simpa using h)
    exact hb.trans hz.le

open NumberGuess in
/-- C10: NumberDuel feedback direction.  For every in-progress state and
every guess, makeGuess answers correct exactly when the guess equals the
target, higher exactly when the guess is strictly below the target, lower
exactly when it is strictly above, and in all three cases appends the
(current player, guess, feedback) triple to history and increments
attempts by one. -/
theorem numberduel_feedback_direction (s : NumberGuess.State) (g : Int)
    (h : s.status = GameStatus.in_progress) :
    ∃ r, (makeGuess s g).feedback = some r ∧
      (r = Feedback.correct ↔ g = s.targetNumber) ∧
      (r = Feedback.higher ↔ g < s.targetNumber) ∧
      (r = Feedback.lower ↔ s.targetNumber < g) ∧
      (makeGuess s g).history = s.history ++ [⟨s.currentPlayer, g, r⟩] ∧
      (makeGuess s g).attempts = s.attempts + 1 := by
  by_cases h1 : g = s.targetNumber
  · refine ⟨Feedback.correct, ?_, ?_, ?_, ?_, ?_, ?_⟩ <;>
      simp [makeGuess, h, h1]
  · by_cases h2 : g < s.targetNumber
    · refine ⟨Feedback.higher, ?_, ?_, ?_, ?_, ?_, ?_⟩ <;>
        simp [makeGuess, h, h1, h2] <;> omega
    · refine ⟨Feedback.lower, ?_, ?_, ?_, ?_, ?_, ?_⟩ <;>
        simp [makeGuess, h, h1, h2] <;> omega

open NumberGuess in
/-- C10 witness: the theorem applied to a concrete in-progress state and
the guess 17, which is below the target 42. -/
theorem numberduel_feedback_direction_witness :
    ∃ r, (makeGuess numberDuelDemo 17).feedback = some r ∧
      (r = Feedback.correct ↔ (17 : Int) = numberDuelDemo.targetNumber) ∧
      (r = Feedback.higher ↔ (17 : Int) < numberDuelDemo.targetNumber) ∧
      (r = Feedback.lower ↔ numberDuelDemo.targetNumber < (17 : Int)) ∧
      (makeGuess numberDuelDemo 17).history
        = numberDuelDemo.history ++ [⟨numberDuelDemo.currentPlayer, 17, r⟩] ∧
      (makeGuess numberDuelDemo 17).attempts = numberDuelDemo.attempts + 1 :=
  numberduel_feedback_direction numberDuelDemo 17 rfl

open TurkishWordle in
/-- C1 witness: the theorem applied to the concrete ALMA target and MAMA
guess, bounding the A marks by the number of As in the target. -/
theorem wordle_duplicate_letter_scoring_witness :
    markCount 'A' (evaluateTurkishWordleGuess "ALMA".toList "MAMA".toList)
      ≤ ("ALMA".toList.map turkishUpper).count 'A' :=
  (wordle_duplicate_letter_scoring "ALMA".toList "MAMA".toList (by decide)).2.1 'A'

/-- Helper shared by several theorems: checkMatch is the identity whenever
flippedIndices does not have exactly two entries. -/
theorem checkMatch_of_length_ne_two (s : MemoryMatch.State)
    (hlen : s.flippedIndices.length ≠ 2) : MemoryMatch.checkMatch s = some s := by
  match hfi : s.flippedIndices with
  | [] => simp [MemoryMatch.checkMatch, hfi]
  | [a] => simp [MemoryMatch.checkMatch, hfi]
  | [a, b] => exact absurd (by rw [hfi]; rfl) hlen
  | a :: b :: c :: rest => simp [MemoryMatch.checkMatch, hfi]

/-- Helper: fireShot never writes the status field. -/
theorem fireShot_status_eq (s : Battleship.State) (r c : Nat)
    (s' : Battleship.State) (heq : Battleship.fireShot s r c = some s') :
    s'.status = s.status := by
  simp only [Battleship.fireShot] at heq
  split at heq
  · obtain rfl := Option.some.inj heq; rfl
  · split at heq
    · exact absurd heq (by simp)
    · split at heq
      · obtain rfl := Option.some.inj heq; rfl
      · split at heq
        · exact absurd heq (by simp)
        · obtain rfl := Option.some.inj heq; rfl

/-- Helper: placeShip never writes status or currentPlayer. -/
theorem placeShip_preserves (s : Battleship.State) (r c : Nat)
    (s' : Battleship.State) (heq : Battleship.placeShip s r c = some s') :
    s'.status = s.status ∧ s'.currentPlayer = s.currentPlayer := by
  simp only [Battleship.placeShip] at heq
  split at heq
  · obtain rfl := Option.some.inj heq; exact ⟨rfl, rfl⟩
  · split at heq
    · obtain rfl := Option.some.inj heq; exact ⟨rfl, rfl⟩
    · split at heq
      · obtain rfl := Option.some.inj heq; exact ⟨rfl, rfl⟩
      · split at heq
        · exact absurd heq (by simp)
        · split at heq
          · exact absurd heq (by simp)
          · obtain rfl := Option.some.inj heq; exact ⟨rfl, rfl⟩
          · split at heq
            · exact absurd heq (by simp)
            · split at heq
              · obtain rfl := Option.some.inj heq; exact ⟨rfl, rfl⟩
              · obtain rfl := Option.some.inj heq; exact ⟨rfl, rfl⟩

/-- Helper: finishSetup never writes the status field. -/
theorem finishSetup_status_eq (s : Battleship.State) :
    (Battleship.finishSetup s).status = s.status := by
  simp only [Battleship.finishSetup]
  split
  · split <;> rfl
  · split
    · split <;> rfl
    · rfl

/-- Helper: flipCard never writes the currentPlayer field. -/
theorem flipCard_player_eq (s : MemoryMatch.State) (i : Nat)
    (s' : MemoryMatch.State) (heq : MemoryMatch.flipCard s i = some s') :
    s'.currentPlayer = s.currentPlayer := by
  simp only [MemoryMatch.flipCard] at heq
  split at heq
  · obtain rfl := Option.some.inj heq; rfl
  · split at heq
    · obtain rfl := Option.some.inj heq; rfl
    · split at heq
      · exact absurd heq (by simp)
      · split at heq
        · obtain rfl := Option.some.inj heq; rfl
        · obtain rfl := Option.some.inj heq; rfl

/-- Helper: checkMatch never writes the currentPlayer field. -/
theorem checkMatch_player_eq (s : MemoryMatch.State)
    (s' : MemoryMatch.State) (heq : MemoryMatch.checkMatch s = some s') :
    s'.currentPlayer = s.currentPlayer := by
  simp only [MemoryMatch.checkMatch] at heq
  split at heq
  · split at heq
    · obtain rfl := Option.some.inj heq; rfl
    · exact absurd heq (by simp)
  · obtain rfl := Option.some.inj heq; rfl

open Battleship in
/-- C3 counterexample: the claim says every Battleship transition,
including toggleOrientation, is a no-op once the phase is finished, but
toggleOrientation has no phase guard and flips the setup orientation of a
finished-phase state, returning a state different from its input. -/
theorem terminal_absorption_cex :
    toggleOrientation { battleshipDemo with phase := Phase.finished }
      ≠ { battleshipDemo with phase := Phase.finished } := by
  decide

open Battleship TurkishWordle in
/-- C3 amended: terminal absorption holds for every status- or
phase-guarded transition: TicTacToe, ConnectFour and Rock-Paper-Scissors
makeMove, NumberDuel, GeoQuiz and Hangman makeGuess, MemoryMatch flipCard
(and checkMatch whenever flippedIndices does not have length two),
WordleClone submitGuess and updateCurrentGuess, and Battleship fireShot,
placeShip and finishSetup in the finished phase.  Battleship selectShip
and toggleOrientation are not guarded and are excluded. -/
theorem terminal_absorption_amended :
    (∀ (s : TicTacToe.State) (i : Nat),
      s.status ≠ GameStatus.in_progress → TicTacToe.makeMove s i = s) ∧
    (∀ (s : FourInARow.State) (c : Nat),
      s.status ≠ GameStatus.in_progress → FourInARow.makeMove s c = s) ∧
    (∀ (s : RockPaperScissors.State) (m ai : RockPaperScissors.RPSMove),
      s.status ≠ GameStatus.in_progress → RockPaperScissors.makeMove s m ai = s) ∧
    (∀ (s : NumberGuess.State) (g : Int),
      s.status ≠ GameStatus.in_progress → NumberGuess.makeGuess s g = s) ∧
    (∀ (s : TinyGeoGuess.State) (g : String) (loc : TinyGeoGuess.Location),
      s.status ≠ GameStatus.in_progress → TinyGeoGuess.makeGuess s g loc = s) ∧
    (∀ (s : WordGuess.State) (c : Char),
      s.status ≠ GameStatus.in_progress → WordGuess.makeGuess s c = s) ∧
    (∀ (s : MemoryMatch.State) (i : Nat),
      s.status ≠ GameStatus.in_progress → MemoryMatch.flipCard s i = some s) ∧
    (∀ s : MemoryMatch.State,
      s.status ≠ GameStatus.in_progress → s.flippedIndices.length ≠ 2 →
        MemoryMatch.checkMatch s = some s) ∧
    (∀ s : TurkishWordle.State,
      s.status ≠ TWStatus.in_progress → submitGuess s = s) ∧
    (∀ (s : TurkishWordle.State) (t : List Char),
      s.status ≠ TWStatus.in_progress → updateCurrentGuess s t = s) ∧
    (∀ (s : Battleship.State) (r c : Nat),
      isFinished s → fireShot s r c = some s) ∧
    (∀ (s : Battleship.State) (r c : Nat),
      isFinished s → placeShip s r c = some s) ∧
    (∀ s : Battleship.State, isFinished s → finishSetup s = s) := by
  refine ⟨?_, ?_, ?_, ?_, ?_, ?_, ?_, ?_, ?_, ?_, ?_, ?_, ?_⟩
  · intro s i h; simp [TicTacToe.makeMove, h]
  · intro s c h; simp [FourInARow.makeMove, h]
  · intro s m ai h; simp [RockPaperScissors.makeMove, h]
  · intro s g h; simp [NumberGuess.makeGuess, h]
  · intro s g loc h; simp [TinyGeoGuess.makeGuess, h]
  · intro s c h; simp [WordGuess.makeGuess, h]
  · intro s i h; simp [MemoryMatch.flipCard, h]
  · intro s h hlen
    exact checkMatch_of_length_ne_two s hlen
  · intro s h; simp [submitGuess, h]
  · intro s t h; simp [updateCurrentGuess, h]
  · intro s r c h
    have hph : s.phase = Phase.finished := h
    simp [fireShot, hph]
  · intro s r c h
    have hph : s.phase = Phase.finished := h
    simp [placeShip, hph]
  · intro s h
    have hph : s.phase = Phase.finished := h
    simp [finishSetup, hph]

open Battleship in
/-- C3 amended witness: the amended theorem applied to the won TicTacToe
position and to a finished Battleship position fired upon again. -/
theorem terminal_absorption_amended_witness :
    TicTacToe.makeMove tictactoeWonDemo 5 = tictactoeWonDemo ∧
    fireShot { battleshipDemo with phase := Phase.finished } 0 1
      = some { battleshipDemo with phase := Phase.finished } :=
  ⟨terminal_absorption_amended.1 tictactoeWonDemo 5 (by decide),
   (terminal_absorption_amended.2.2.2.2.2.2.2.2.2.2).1
     { battleshipDemo with phase := Phase.finished } 0 1 rfl⟩

open Battleship in
/-- C2: Battleship winning shot.  In the in_progress phase, firing at a
not-yet-shot coordinate that holds the last cell of the only remaining
unsunk defender ship brings that ship to hits = size, leaves every
defender ship with hits equal to size, sets phase to finished (the
terminal state for Battleship per the glossary) and makes the attacker,
the input currentPlayer, the winner. -/
theorem battleship_winning_shot (s : Battleship.State) (row col k : Nat)
    (u : Ship) (shotsRow gridRow : List CellStatus)
    (hphase : s.phase = Phase.in_progress)
    (hshots : (attackerBoard s.currentPlayer s).shots[row]? = some shotsRow)
    (hempty : shotsRow[col]? = some CellStatus.empty)
    (hgrid : (defenderBoard s.currentPlayer s).grid[row]? = some gridRow)
    (hship : gridRow[col]? = some CellStatus.ship)
    (hk : (defenderBoard s.currentPlayer s).ships[k]? = some u)
    (hcont : shipContains u row col = true)
    (hlast : u.hits + 1 = u.size)
    (hothers : ∀ j v, j ≠ k →
      (defenderBoard s.currentPlayer s).ships[j]? = some v →
      v.hits = v.size ∧ shipContains v row col = false) :
    ∃ s', fireShot s row col = some s' ∧
      (defenderBoard s.currentPlayer s').ships[k]?
        = some { u with hits := u.hits + 1 } ∧
      u.hits + 1 = u.size ∧
      (∀ v ∈ (defenderBoard s.currentPlayer s').ships, v.hits = v.size) ∧
      s'.phase = Phase.finished ∧
      isFinished s' ∧
      s'.winner = some s.currentPlayer := by
  cases hP : s.currentPlayer with
  | P1 =>
    simp [attackerBoard, defenderBoard, hP] at hshots hgrid hk hothers
    have hall : ∀ x ∈ s.p2.ships,
        (if shipContains x row col then { x with hits := x.hits + 1 } else x).hits
          = (if shipContains x row col then { x with hits := x.hits + 1 }
              else x).size := by
      intro v hv
      obtain ⟨n, hn⟩ := List.mem_iff_getElem?.mp hv
      by_cases hnk : n = k
      · subst hnk
        have hvu : v = u := Option.some.inj (hn.symm.trans hk)
        subst hvu
        simp [hcont]
        omega
      · obtain ⟨hvs, hvc⟩ := hothers n v hnk hn
        simp [hvc, hvs]
    rcases hfs : fireShot s row col with _ | s2
    · exfalso
      simp [fireShot, hphase, hP, hshots, hempty, hgrid, hship] at hfs
    · simp [fireShot, hphase, hP, hshots, hempty, hgrid, hship] at hfs
      subst hfs
      refine ⟨_, rfl, ?_, hlast, ?_, ?_, ?_, ?_⟩
      · simp [defenderBoard, List.getElem?_map, hk, hcont]
      · intro v hv
        simp [defenderBoard] at hv
        obtain ⟨w, hw, rfl⟩ := hv
        exact hall w hw
      · simp
        exact hall
      · simp [isFinished]
        exact hall
      · simp [hP]
        intro x hx hne
        exact absurd (hall x hx) hne
  | P2 =>
    simp [attackerBoard, defenderBoard, hP] at hshots hgrid hk hothers
    have hall : ∀ x ∈ s.p1.ships,
        (if shipContains x row col then { x with hits := x.hits + 1 } else x).hits
          = (if shipContains x row col then { x with hits := x.hits + 1 }
              else x).size := by
      intro v hv
      obtain ⟨n, hn⟩ := List.mem_iff_getElem?.mp hv
      by_cases hnk : n = k
      · subst hnk
        have hvu : v = u := Option.some.inj (hn.symm.trans hk)
        subst hvu
        simp [hcont]
        omega
      · obtain ⟨hvs, hvc⟩ := hothers n v hnk hn
        simp [hvc, hvs]
    rcases hfs : fireShot s row col with _ | s2
    · exfalso
      simp [fireShot, hphase, hP, hshots, hempty, hgrid, hship] at hfs
    · simp [fireShot, hphase, hP, hshots, hempty, hgrid, hship] at hfs
      subst hfs
      refine ⟨_, rfl, ?_, hlast, ?_, ?_, ?_, ?_⟩
      · simp [defenderBoard, List.getElem?_map, hk, hcont]
      · intro v hv
        simp [defenderBoard] at hv
        obtain ⟨w, hw, rfl⟩ := hv
        exact hall w hw
      · simp
        exact hall
      · simp [isFinished]
        exact hall
      · simp [hP]
        intro x hx hne
        exact absurd (hall x hx) hne

open Battleship in
/-- C2 witness: the theorem applied to the concrete position in which P2
has one destroyer at (0,0)-(0,1), already hit at (0,0), and P1 fires at
(0,1). -/
theorem battleship_winning_shot_witness :
    ∃ s', fireShot battleshipDemo 0 1 = some s' ∧
      (defenderBoard battleshipDemo.currentPlayer s').ships[0]?
        = some { id := "destroyer", name := "Destroyer", size := 2, hits := 2,
                 placed := true,
                 position := some ⟨0, 0, Orientation.horizontal⟩ } ∧
      1 + 1 = 2 ∧
      (∀ v ∈ (defenderBoard battleshipDemo.currentPlayer s').ships,
        v.hits = v.size) ∧
      s'.phase = Phase.finished ∧
      isFinished s' ∧
      s'.winner = some battleshipDemo.currentPlayer :=
  battleship_winning_shot battleshipDemo 0 1 0
    { id := "destroyer", name := "Destroyer", size := 2, hits := 1,
      placed := true, position := some ⟨0, 0, Orientation.horizontal⟩ }
    (List.replicate 6 CellStatus.empty)
    [CellStatus.hit, CellStatus.ship, CellStatus.empty, CellStatus.empty,
     CellStatus.empty, CellStatus.empty]
    rfl rfl rfl rfl rfl rfl rfl rfl
    (fun j v hj hv => by
      cases j with
      | zero => exact absurd rfl hj
      | succ j0 => exact absurd hv (by simp [battleshipDemo, defenderBoard]))

open TurkishWordle in
/-- C8: WordleClone rejected submission.  For every in-progress state whose
buffered guess has the wrong length or is outside the allowed-word
dictionary, submitGuess returns a state with a non-null errorMessage and
with guesses, currentAttemptIndex, status, winner and targetWord
unchanged: the attempt is not consumed. -/
theorem wordle_rejected_submission (s : TurkishWordle.State)
    (hs : s.status = TWStatus.in_progress)
    (hbad : s.currentGuess.length ≠ s.wordLength
      ∨ ¬ ALLOWED_WORDS_TR.contains (s.currentGuess.map turkishUpper)) :
    (submitGuess s).errorMessage.isSome = true ∧
    (submitGuess s).guesses = s.guesses ∧
    (submitGuess s).currentAttemptIndex = s.currentAttemptIndex ∧
    (submitGuess s).status = s.status ∧
    (submitGuess s).winner = s.winner ∧
    (submitGuess s).targetWord = s.targetWord := by
  by_cases hlen : s.currentGuess.length = s.wordLength
  · have hml : (s.currentGuess.map turkishUpper).length = s.wordLength := by
      simpa using hlen
    have hdict : s.currentGuess.map turkishUpper ∉ ALLOWED_WORDS_TR := by
      have := hbad.resolve_left (by simpa using hlen)
      simpa using this
    have hvalid :
        isValidTurkishWord (s.currentGuess.map turkishUpper) s.wordLength = false := by
      simp [isValidTurkishWord, hml, hdict]
    refine ⟨?_, ?_, ?_, ?_, ?_, ?_⟩ <;> simp [submitGuess, hs, hlen, hml, hvalid]
  · refine ⟨?_, ?_, ?_, ?_, ?_, ?_⟩ <;> simp [submitGuess, hs, hlen]

open TurkishWordle in
/-- C8 witness: the theorem applied to a concrete in-progress state whose
buffered guess AB is shorter than the word length 5. -/
theorem wordle_rejected_submission_witness :
    (submitGuess wordleRejectDemo).errorMessage.isSome = true ∧
    (submitGuess wordleRejectDemo).guesses = wordleRejectDemo.guesses ∧
    (submitGuess wordleRejectDemo).currentAttemptIndex
      = wordleRejectDemo.currentAttemptIndex ∧
    (submitGuess wordleRejectDemo).status = wordleRejectDemo.status ∧
    (submitGuess wordleRejectDemo).winner = wordleRejectDemo.winner ∧
    (submitGuess wordleRejectDemo).targetWord = wordleRejectDemo.targetWord :=
  wordle_rejected_submission wordleRejectDemo rfl (Or.inl (by decide))

open MemoryMatch in
/-- C9: MemoryMatch resolution.  With exactly two flipped indices that
address cards on the board, checkMatch marks both cards matched when their
values are equal and flips both face-down otherwise, clears
flippedIndices, increments movesCount by exactly one, and reports win
exactly when every card on the returned board is matched; with any other
number of flipped indices it returns the state unchanged. -/
theorem memorymatch_checkmatch_resolution :
    (∀ (s : MemoryMatch.State) (i j : Nat) (c1 c2 : MemoryMatch.Card),
      s.flippedIndices = [i, j] →
      s.board[i]? = some c1 → s.board[j]? = some c2 →
      ∃ s', checkMatch s = some s' ∧
        (c1.value = c2.value →
          s'.board[i]? = some { c1 with isMatched := true } ∧
          s'.board[j]? = some { c2 with isMatched := true }) ∧
        (c1.value ≠ c2.value →
          s'.board[i]? = some { c1 with isFlipped := false } ∧
          s'.board[j]? = some { c2 with isFlipped := false }) ∧
        s'.flippedIndices = [] ∧
        s'.movesCount = s.movesCount + 1 ∧
        (s'.status = GameStatus.win ↔ s'.board.all (fun c => c.isMatched) = true)) ∧
    (∀ s : MemoryMatch.State, s.flippedIndices.length ≠ 2 → checkMatch s = some s) := by
  constructor
  · intro s i j c1 c2 hfi hci hcj
    obtain ⟨hi, -⟩ := List.getElem?_eq_some_iff.mp hci
    obtain ⟨hj, -⟩ := List.getElem?_eq_some_iff.mp hcj
    by_cases hval : c1.value = c2.value
    · have hcm : checkMatch s = some
        { s with
          board := (s.board.set i { c1 with isMatched := true }).set j
            { c2 with isMatched := true },
          flippedIndices := [],
          movesCount := s.movesCount + 1,
          status := if ((s.board.set i { c1 with isMatched := true }).set j
              { c2 with isMatched := true }).all (fun c => c.isMatched) then
            GameStatus.win else GameStatus.in_progress,
          winner := if ((s.board.set i { c1 with isMatched := true }).set j
              { c2 with isMatched := true }).all (fun c => c.isMatched) then
            some Player.P1 else none } := by
        simp only [checkMatch, hfi, hci, hcj]
        rw [if_pos hval]
      refine ⟨_, hcm, fun _ => ⟨?_, ?_⟩, fun hne => absurd hval hne, rfl, rfl, ?_⟩
      · by_cases hij : i = j
        · subst hij
          have hc : c1 = c2 := Option.some.inj (hci.symm.trans hcj)
          rw [hc]
          exact List.getElem?_set_self (by simpa using hi)
        · rw [List.getElem?_set_ne (Ne.symm hij)]
          exact List.getElem?_set_self hi
      · exact List.getElem?_set_self (by simpa using hj)
      · by_cases hall : (((s.board.set i { c1 with isMatched := true }).set j
            { c2 with isMatched := true }).all fun c => c.isMatched) = true <;>
          simp [hall]
    · have hcm : checkMatch s = some
        { s with
          board := (s.board.set i { c1 with isFlipped := false }).set j
            { c2 with isFlipped := false },
          flippedIndices := [],
          movesCount := s.movesCount + 1,
          status := if ((s.board.set i { c1 with isFlipped := false }).set j
              { c2 with isFlipped := false }).all (fun c => c.isMatched) then
            GameStatus.win else GameStatus.in_progress,
          winner := if ((s.board.set i { c1 with isFlipped := false }).set j
              { c2 with isFlipped := false }).all (fun c => c.isMatched) then
            some Player.P1 else none } := by
        simp only [checkMatch, hfi, hci, hcj]
        rw [if_neg hval]
      refine ⟨_, hcm, fun heq => absurd heq hval, fun _ => ⟨?_, ?_⟩, rfl, rfl, ?_⟩
      · have hij : i ≠ j := by
          intro hij
          subst hij
          exact hval (congrArg MemoryMatch.Card.value
            (Option.some.inj (hci.symm.trans hcj)))
        rw [List.getElem?_set_ne (Ne.symm hij)]
        exact List.getElem?_set_self hi
      · exact List.getElem?_set_self (by simpa using hj)
      · by_cases hall : (((s.board.set i { c1 with isFlipped := false }).set j
            { c2 with isFlipped := false }).all fun c => c.isMatched) = true <;>
          simp [hall]
  · intro s hlen
    exact checkMatch_of_length_ne_two s hlen

namespace FourInARow

theorem lowestEmptyRowAux_some_spec (b : List (List (Option Player))) (col : Nat) :
    ∀ (n r0 : Nat), lowestEmptyRowAux b col n = some r0 →
      r0 < n ∧ colCell b r0 col = some none ∧
      ∀ r, r0 < r → r < n → colCell b r col ≠ some none := by
  intro n
  induction n with
  | zero => intro r0 h; simp [lowestEmptyRowAux] at h
  | succ m ih =>
    intro r0 h
    by_cases hc : colCell b m col = some none
    · rw [lowestEmptyRowAux, if_pos hc] at h
      obtain rfl : m = r0 := by injection h
      exact ⟨Nat.lt_succ_self m, hc, fun r hr1 hr2 => by omega⟩
    · rw [lowestEmptyRowAux, if_neg hc] at h
      obtain ⟨h1, h2, h3⟩ := ih r0 h
      refine ⟨by omega, h2, fun r hr1 hr2 => ?_⟩
      rcases Nat.lt_or_ge r m with hlt | hge
      · exact h3 r hr1 hlt
      · have : r = m := by omega
        subst this
        exact hc

theorem lowestEmptyRowAux_none_spec (b : List (List (Option Player))) (col : Nat) :
    ∀ n, lowestEmptyRowAux b col n = none →
      ∀ r, r < n → colCell b r col ≠ some none := by
  intro n
  induction n with
  | zero => intro _ r hr; omega
  | succ m ih =>
    intro h r hr
    by_cases hc : colCell b m col = some none
    · rw [lowestEmptyRowAux, if_pos hc] at h
      exact absurd h (by simp)
    · rw [lowestEmptyRowAux, if_neg hc] at h
      rcases Nat.lt_or_ge r m with hlt | hge
      · exact ih h r hlt
      · have : r = m := by omega
        subst this
        exact hc

theorem makeMove_board_of_found (s : State) (col r0 : Nat)
    (hs : s.status = GameStatus.in_progress)
    (hler : lowestEmptyRow s.board col = some r0) :
    (makeMove s col).board
      = s.board.set r0 ((s.board.getD r0 []).set col (some s.currentPlayer)) := by
  simp only [makeMove, hs, hler]
  split
  · simp_all
  · split
    · rfl
    · split <;> rfl

end FourInARow

open FourInARow in
/-- C5: ConnectFour gravity.  For every in-progress state and every column
holding at least one empty cell, makeMove drops the current player into
the lowest empty row of that column (no empty cell lies below it) and
leaves every other cell unchanged; for a column with no empty cell,
makeMove returns the state unchanged, so in particular currentPlayer does
not alternate. -/
theorem connectfour_gravity :
    (∀ (s : FourInARow.State) (col : Nat),
      s.status = GameStatus.in_progress →
      (∃ r, r < ROWS ∧ colCell s.board r col = some none) →
      ∃ r0, r0 < ROWS ∧ colCell s.board r0 col = some none ∧
        (∀ r, r0 < r → r < ROWS → colCell s.board r col ≠ some none) ∧
        colCell (makeMove s col).board r0 col = some (some s.currentPlayer) ∧
        (∀ r c, ¬(r = r0 ∧ c = col) →
          colCell (makeMove s col).board r c = colCell s.board r c)) ∧
    (∀ (s : FourInARow.State) (col : Nat),
      s.status = GameStatus.in_progress →
      (∀ r, r < ROWS → colCell s.board r col ≠ some none) →
      makeMove s col = s) := by
  constructor
  · intro s col hs hex
    cases hler : lowestEmptyRow s.board col with
    | none =>
      obtain ⟨r, hr, hempty⟩ := hex
      exact absurd hempty (lowestEmptyRowAux_none_spec s.board col ROWS hler r hr)
    | some r0 =>
      obtain ⟨hr0, hcell, habove⟩ := lowestEmptyRowAux_some_spec s.board col ROWS r0 hler
      obtain ⟨row, hrow, hcol⟩ := Option.bind_eq_some.mp hcell
      obtain ⟨hr0len, -⟩ := List.getElem?_eq_some_iff.mp hrow
      obtain ⟨hcollen, -⟩ := List.getElem?_eq_some_iff.mp hcol
      have hboard := makeMove_board_of_found s col r0 hs hler
      have hgetd : s.board.getD r0 [] = row := by
        simp [List.getD, hrow]
      refine ⟨r0, hr0, hcell, habove, ?_, ?_⟩
      · rw [hboard, colCell, List.getElem?_set_self hr0len, hgetd]
        simp [List.getElem?_set_self hcollen]
      · intro r c hne
        rw [hboard, colCell, colCell]
        by_cases hrr : r = r0
        · subst hrr
          have hcc : c ≠ col := fun hcc => hne ⟨rfl, hcc⟩
          rw [List.getElem?_set_self hr0len, hgetd, hrow]
          simp [List.getElem?_set_ne (fun h => hcc h.symm)]
        · rw [List.getElem?_set_ne (fun h => hrr h.symm)]
  · intro s col hs hfull
    cases hler : lowestEmptyRow s.board col with
    | none => simp [makeMove, hs, hler]
    | some r0 =>
      obtain ⟨hr0, hcell, -⟩ := lowestEmptyRowAux_some_spec s.board col ROWS r0 hler
      exact absurd hcell (hfull r0 hr0)

open FourInARow in
/-- C5 witness: the theorem applied to the empty six-by-seven position and
column 3, which has an empty cell at the bottom row. -/
theorem connectfour_gravity_witness :
    ∃ r0, r0 < ROWS ∧ colCell connectFourDemo.board r0 3 = some none ∧
      (∀ r, r0 < r → r < ROWS → colCell connectFourDemo.board r 3 ≠ some none) ∧
      colCell (makeMove connectFourDemo 3).board r0 3
        = some (some connectFourDemo.currentPlayer) ∧
      (∀ r c, ¬(r = r0 ∧ c = 3) →
        colCell (makeMove connectFourDemo 3).board r c
          = colCell connectFourDemo.board r c) :=
  connectfour_gravity.1 connectFourDemo 3 rfl ⟨5, by decide, by decide⟩

open Battleship TurkishWordle in
/-- C6: Turn preservation on terminal transitions, all games except
Rock-Paper-Scissors.  A transition returning a terminal status (win, draw
or lose) preserves currentPlayer, and currentPlayer changes only on a
transition whose returned status is in_progress.  Hangman, GeoQuiz,
MemoryMatch and WordleClone never change currentPlayer at all.
Battleship never writes its status field, so from an in-progress status
(the only value the engine ever creates, as the preservation conjuncts
show) every returned status is again in_progress and the flip of the
turn by fireShot and finishSetup is covered by the second pattern. -/
theorem turn_preservation_on_terminal :
    (∀ (s : TicTacToe.State) (i : Nat),
      ((TicTacToe.makeMove s i).status.isTerminal = true →
        (TicTacToe.makeMove s i).currentPlayer = s.currentPlayer) ∧
      ((TicTacToe.makeMove s i).currentPlayer ≠ s.currentPlayer →
        (TicTacToe.makeMove s i).status = GameStatus.in_progress)) ∧
    (∀ (s : FourInARow.State) (c : Nat),
      ((FourInARow.makeMove s c).status.isTerminal = true →
        (FourInARow.makeMove s c).currentPlayer = s.currentPlayer) ∧
      ((FourInARow.makeMove s c).currentPlayer ≠ s.currentPlayer →
        (FourInARow.makeMove s c).status = GameStatus.in_progress)) ∧
    (∀ (s : NumberGuess.State) (g : Int),
      ((NumberGuess.makeGuess s g).status.isTerminal = true →
        (NumberGuess.makeGuess s g).currentPlayer = s.currentPlayer) ∧
      ((NumberGuess.makeGuess s g).currentPlayer ≠ s.currentPlayer →
        (NumberGuess.makeGuess s g).status = GameStatus.in_progress)) ∧
    (∀ (s : WordGuess.State) (c : Char),
      (WordGuess.makeGuess s c).currentPlayer = s.currentPlayer) ∧
    (∀ (s : TinyGeoGuess.State) (g : String) (loc : TinyGeoGuess.Location),
      (TinyGeoGuess.makeGuess s g loc).currentPlayer = s.currentPlayer) ∧
    (∀ (s s' : MemoryMatch.State) (i : Nat),
      MemoryMatch.flipCard s i = some s' → s'.currentPlayer = s.currentPlayer) ∧
    (∀ s s' : MemoryMatch.State,
      MemoryMatch.checkMatch s = some s' → s'.currentPlayer = s.currentPlayer) ∧
    (∀ s : TurkishWordle.State,
      (submitGuess s).currentPlayer = s.currentPlayer) ∧
    (∀ (s : TurkishWordle.State) (t : List Char),
      (updateCurrentGuess s t).currentPlayer = s.currentPlayer) ∧
    (∀ (s s' : Battleship.State) (r c : Nat),
      s.status = GameStatus.in_progress → fireShot s r c = some s' →
        s'.status = GameStatus.in_progress) ∧
    (∀ (s s' : Battleship.State) (r c : Nat),
      s.status = GameStatus.in_progress → placeShip s r c = some s' →
        s'.status = GameStatus.in_progress ∧
        s'.currentPlayer = s.currentPlayer) ∧
    (∀ s : Battleship.State, s.status = GameStatus.in_progress →
      (finishSetup s).status = GameStatus.in_progress) ∧
    (∀ (s : Battleship.State) (sid : String),
      (selectShip s sid).status = s.status ∧
      (selectShip s sid).currentPlayer = s.currentPlayer) ∧
    (∀ s : Battleship.State,
      (toggleOrientation s).status = s.status ∧
      (toggleOrientation s).currentPlayer = s.currentPlayer) := by
  refine ⟨?_, ?_, ?_, ?_, ?_, ?_, ?_, ?_, ?_, ?_, ?_, ?_, ?_, ?_⟩
  · intro s i
    simp only [TicTacToe.makeMove]
    split
    · simp
    · split
      · split
        · simp [GameStatus.isTerminal]
        · split
          · simp [GameStatus.isTerminal]
          · simp [GameStatus.isTerminal]
      · simp
  · intro s c
    simp only [FourInARow.makeMove]
    split
    · simp
    · split
      · simp
      · split
        · simp [GameStatus.isTerminal]
        · split
          · simp [GameStatus.isTerminal]
          · simp [GameStatus.isTerminal]
  · intro s g
    simp only [NumberGuess.makeGuess]
    split
    · simp
    · by_cases hgt : g = s.targetNumber <;>
        by_cases hm : s.mode = GameMode.multiplayer <;>
        simp [hgt, hm, GameStatus.isTerminal]
  · intro s c
    simp only [WordGuess.makeGuess]
    split
    · rfl
    · split
      · rfl
      · rfl
  · intro s g loc
    simp only [TinyGeoGuess.makeGuess]
    split
    · rfl
    · rfl
  · intro s s' i heq
    exact flipCard_player_eq s i s' heq
  · intro s s' heq
    exact checkMatch_player_eq s s' heq
  · intro s
    simp only [submitGuess]
    split
    · rfl
    · split
      · rfl
      · split
        · rfl
        · rfl
  · intro s t
    simp only [updateCurrentGuess]
    split
    · rfl
    · split
      · rfl
      · rfl
  · intro s s' r c hst heq
    rw [fireShot_status_eq s r c s' heq, hst]
  · intro s s' r c hst heq
    obtain ⟨h1, h2⟩ := placeShip_preserves s r c s' heq
    exact ⟨h1.trans hst, h2⟩
  · intro s hst
    rw [finishSetup_status_eq s, hst]
  · intro s sid
    exact ⟨rfl, rfl⟩
  · intro s
    exact ⟨rfl, rfl⟩

open Battleship in
/-- C6 witness: the theorem applied to a winning NumberDuel guess, which
keeps the turn with P1, and to the concrete Battleship winning shot, whose
returned status field is still in_progress. -/
theorem turn_preservation_on_terminal_witness :
    ((NumberGuess.makeGuess numberDuelDemo 42).status.isTerminal = true →
      (NumberGuess.makeGuess numberDuelDemo 42).currentPlayer
        = numberDuelDemo.currentPlayer) ∧
    ((NumberGuess.makeGuess numberDuelDemo 42).currentPlayer
        ≠ numberDuelDemo.currentPlayer →
      (NumberGuess.makeGuess numberDuelDemo 42).status
        = GameStatus.in_progress) :=
  turn_preservation_on_terminal.2.2.1 numberDuelDemo 42

open Battleship TurkishWordle in
/-- C7: Idempotence of rejection.  Applying a transition with an action
that is illegal in the state twice yields the same state as applying it
once: a terminal state, an occupied TicTacToe cell, a full ConnectFour
column, a repeated Hangman letter, MemoryMatch rejections, an
already-fired Battleship coordinate, an invalid Battleship placement, a
premature finishSetup, and an invalid or wrongly sized WordleClone guess
or over-length input buffer.  Option-valued transitions are composed with
bind. -/
theorem rejection_idempotent :
    (∀ (s : TicTacToe.State) (i : Nat),
      s.status ≠ GameStatus.in_progress ∨ s.board[i]? ≠ some none →
      TicTacToe.makeMove (TicTacToe.makeMove s i) i = TicTacToe.makeMove s i) ∧
    (∀ (s : FourInARow.State) (c : Nat),
      s.status ≠ GameStatus.in_progress ∨ FourInARow.lowestEmptyRow s.board c = none →
      FourInARow.makeMove (FourInARow.makeMove s c) c = FourInARow.makeMove s c) ∧
    (∀ (s : RockPaperScissors.State) (m ai : RockPaperScissors.RPSMove),
      s.status ≠ GameStatus.in_progress →
      RockPaperScissors.makeMove (RockPaperScissors.makeMove s m ai) m ai
        = RockPaperScissors.makeMove s m ai) ∧
    (∀ (s : NumberGuess.State) (g : Int),
      s.status ≠ GameStatus.in_progress →
      NumberGuess.makeGuess (NumberGuess.makeGuess s g) g
        = NumberGuess.makeGuess s g) ∧
    (∀ (s : TinyGeoGuess.State) (g : String) (loc : TinyGeoGuess.Location),
      s.status ≠ GameStatus.in_progress →
      TinyGeoGuess.makeGuess (TinyGeoGuess.makeGuess s g loc) g loc
        = TinyGeoGuess.makeGuess s g loc) ∧
    (∀ (s : WordGuess.State) (c : Char),
      s.status ≠ GameStatus.in_progress
        ∨ s.guessedLetters.contains (WordGuess.upperAscii c) →
      WordGuess.makeGuess (WordGuess.makeGuess s c) c = WordGuess.makeGuess s c) ∧
    (∀ (s : MemoryMatch.State) (i : Nat),
      s.status ≠ GameStatus.in_progress ∨ 2 ≤ s.flippedIndices.length ∨
        (∃ card, s.board[i]? = some card ∧ (card.isFlipped ∨ card.isMatched)) →
      (MemoryMatch.flipCard s i).bind (fun t => MemoryMatch.flipCard t i)
        = MemoryMatch.flipCard s i) ∧
    (∀ s : MemoryMatch.State, s.flippedIndices.length ≠ 2 →
      (MemoryMatch.checkMatch s).bind MemoryMatch.checkMatch
        = MemoryMatch.checkMatch s) ∧
    (∀ (s : Battleship.State) (r c : Nat) (shotsRow : List CellStatus),
      s.phase = Phase.in_progress →
      (attackerBoard s.currentPlayer s).shots[r]? = some shotsRow →
      shotsRow[c]? ≠ some CellStatus.empty →
      (fireShot s r c).bind (fun t => fireShot t r c) = fireShot s r c) ∧
    (∀ (s : Battleship.State) (r c : Nat),
      s.phase ≠ Phase.in_progress →
      (fireShot s r c).bind (fun t => fireShot t r c) = fireShot s r c) ∧
    (∀ s : Battleship.State,
      (s.phase = Phase.setup_p1 → s.p1.ships.any (fun sh => !sh.placed) = true) →
      (s.phase = Phase.setup_p2 → s.p2.ships.any (fun sh => !sh.placed) = true) →
      finishSetup (finishSetup s) = finishSetup s) ∧
    (∀ s : TurkishWordle.State,
      s.status ≠ TWStatus.in_progress
        ∨ (s.currentGuess.map turkishUpper).length ≠ s.wordLength
        ∨ isValidTurkishWord (s.currentGuess.map turkishUpper) s.wordLength = false →
      submitGuess (submitGuess s) = submitGuess s) ∧
    (∀ (s : TurkishWordle.State) (t : List Char),
      s.status ≠ TWStatus.in_progress
        ∨ s.wordLength < ((t.filter isAllowedInputChar).map turkishUpper).length →
      updateCurrentGuess (updateCurrentGuess s t) t = updateCurrentGuess s t) := by
  refine ⟨?_, ?_, ?_, ?_, ?_, ?_, ?_, ?_, ?_, ?_, ?_, ?_, ?_⟩
  · intro s i h
    have hid : TicTacToe.makeMove s i = s := by
      rcases h with h | h
      · simp [TicTacToe.makeMove, h]
      · simp only [TicTacToe.makeMove]
        split
        · rfl
        · cases hbi : s.board[i]? with
          | none => rfl
          | some v =>
            cases v with
            | none => exact absurd hbi h
            | some p => rfl
    rw [hid]
    exact hid
  · intro s c h
    have hid : FourInARow.makeMove s c = s := by
      rcases h with h | h
      · simp [FourInARow.makeMove, h]
      · simp [FourInARow.makeMove, h]
    rw [hid]
    exact hid
  · intro s m ai h
    have hid : RockPaperScissors.makeMove s m ai = s := by
      simp [RockPaperScissors.makeMove, h]
    rw [hid]
    exact hid
  · intro s g h
    have hid : NumberGuess.makeGuess s g = s := by
      simp [NumberGuess.makeGuess, h]
    rw [hid]
    exact hid
  · intro s g loc h
    have hid : TinyGeoGuess.makeGuess s g loc = s := by
      simp [TinyGeoGuess.makeGuess, h]
    rw [hid]
    exact hid
  · intro s c h
    have hid : WordGuess.makeGuess s c = s := by
      rcases h with h | h
      · simp [WordGuess.makeGuess, h]
      · have hmem : WordGuess.upperAscii c ∈ s.guessedLetters := by simpa using h
        by_cases hs : s.status = GameStatus.in_progress
        · simp [WordGuess.makeGuess, hs, hmem]
        · simp [WordGuess.makeGuess, hs]
    rw [hid]
    exact hid
  · intro s i h
    have hid : MemoryMatch.flipCard s i = some s := by
      rcases h with h | h | ⟨card, hcard, hflip⟩
      · simp [MemoryMatch.flipCard, h]
      · by_cases hs : s.status = GameStatus.in_progress
        · simp [MemoryMatch.flipCard, hs, h]
        · simp [MemoryMatch.flipCard, hs]
      · by_cases hs : s.status = GameStatus.in_progress
        · by_cases hlen : 2 ≤ s.flippedIndices.length
          · simp [MemoryMatch.flipCard, hs, hlen]
          · simp [MemoryMatch.flipCard, hs, hlen, hcard, hflip]
        · simp [MemoryMatch.flipCard, hs]
    rw [hid]
    simp [hid]
  · intro s h
    have hid := checkMatch_of_length_ne_two s h
    rw [hid]
    simp [hid]
  · intro s r c shotsRow hphase hshots hne
    cases hP : s.currentPlayer with
    | P1 =>
      simp [attackerBoard, hP] at hshots
      have heq : fireShot s r c
          = some { s with lastActionMessage := some "Already shot there!" } := by
        simp [fireShot, hphase, hP, hshots, hne]
      have heq2 : fireShot { s with lastActionMessage := some "Already shot there!" } r c
          = some { s with lastActionMessage := some "Already shot there!" } := by
        simp [fireShot, hphase, hP, hshots, hne]
      rw [heq]
      simpa using heq2
    | P2 =>
      simp [attackerBoard, hP] at hshots
      have heq : fireShot s r c
          = some { s with lastActionMessage := some "Already shot there!" } := by
        simp [fireShot, hphase, hP, hshots, hne]
      have heq2 : fireShot { s with lastActionMessage := some "Already shot there!" } r c
          = some { s with lastActionMessage := some "Already shot there!" } := by
        simp [fireShot, hphase, hP, hshots, hne]
      rw [heq]
      simpa using heq2
  · intro s r c h
    have hid : fireShot s r c = some s := by
      simp [fireShot, h]
    rw [hid]
    simp [hid]
  · intro s h1 h2
    cases hp : s.phase with
    | setup_p1 =>
      have heq : finishSetup s
          = { s with lastActionMessage := some "Place all ships first!" } := by
        simp [finishSetup, hp, h1 hp]
      rw [heq]
      simp [finishSetup, hp, h1 hp]
    | setup_p2 =>
      have heq : finishSetup s
          = { s with lastActionMessage := some "Place all ships first!" } := by
        simp [finishSetup, hp, h2 hp]
      rw [heq]
      simp [finishSetup, hp, h2 hp]
    | in_progress =>
      have heq : finishSetup s = s := by simp [finishSetup, hp]
      rw [heq]
      exact heq
    | finished =>
      have heq : finishSetup s = s := by simp [finishSetup, hp]
      rw [heq]
      exact heq
  · intro s h
    rcases h with h | h | h
    · have hid : submitGuess s = s := by simp [submitGuess, h]
      rw [hid]
      exact hid
    · have hraw : s.currentGuess.length ≠ s.wordLength := by simpa using h
      by_cases hs : s.status = TWStatus.in_progress
      · have heq : submitGuess s
            = { s with errorMessage := some "Kelime çok kısa" } := by
          simp [submitGuess, hs, hraw]
        rw [heq]
        simp [submitGuess, hs, hraw]
      · have hid : submitGuess s = s := by simp [submitGuess, hs]
        rw [hid]
        exact hid
    · by_cases hs : s.status = TWStatus.in_progress
      · by_cases hlen : s.currentGuess.length = s.wordLength
        · have heq : submitGuess s
              = { s with errorMessage := some "Geçersiz kelime" } := by
            simp [submitGuess, hs, hlen, h]
          rw [heq]
          simp [submitGuess, hs, hlen, h]
        · have heq : submitGuess s
              = { s with errorMessage := some "Kelime çok kısa" } := by
            simp [submitGuess, hs, hlen]
          rw [heq]
          simp [submitGuess, hs, hlen]
      · have hid : submitGuess s = s := by simp [submitGuess, hs]
        rw [hid]
        exact hid
  · intro s t h
    have hid : updateCurrentGuess s t = s := by
      rcases h with h | h
      · simp [updateCurrentGuess, h]
      · by_cases hs : s.status = TWStatus.in_progress
        · have h' : s.wordLength < (t.filter isAllowedInputChar).length := by
            simpa using h
          simp [updateCurrentGuess, hs]
          intro hle
          exact absurd h' (by omega)
        · simp [updateCurrentGuess, hs]
    rw [hid]
    exact hid

open TurkishWordle in
/-- C7 witness: the theorem applied to a TicTacToe move on the occupied
cell 0 of the won demo position, and to a rejected WordleClone submission
resubmitted. -/
theorem rejection_idempotent_witness :
    TicTacToe.makeMove (TicTacToe.makeMove tictactoeWonDemo 0) 0
      = TicTacToe.makeMove tictactoeWonDemo 0 ∧
    submitGuess (submitGuess wordleRejectDemo) = submitGuess wordleRejectDemo :=
  ⟨rejection_idempotent.1 tictactoeWonDemo 0 (Or.inr (by decide)),
   (rejection_idempotent.2.2.2.2.2.2.2.2.2.2.2.1) wordleRejectDemo
     (Or.inr (Or.inl (by decide)))⟩

open MemoryMatch in
/-- C9 witness: the theorem applied to a concrete four-card state whose two
flipped cards share the value X. -/
theorem memorymatch_checkmatch_resolution_witness :
    ∃ s', checkMatch memoryMatchDemo = some s' ∧
      (("X" : String) = "X" →
        s'.board[0]? = some { id := "c0a", value := "X", isFlipped := true, isMatched := true } ∧
        s'.board[1]? = some { id := "c0b", value := "X", isFlipped := true, isMatched := true }) ∧
      (("X" : String) ≠ "X" →
        s'.board[0]? = some { id := "c0a", value := "X", isFlipped := false, isMatched := false } ∧
        s'.board[1]? = some { id := "c0b", value := "X", isFlipped := false, isMatched := false }) ∧
      s'.flippedIndices = [] ∧
      s'.movesCount = memoryMatchDemo.movesCount + 1 ∧
      (s'.status = GameStatus.win ↔ s'.board.all (fun c => c.isMatched) = true) :=
  memorymatch_checkmatch_resolution.1 memoryMatchDemo 0 1
    { id := "c0a", value := "X", isFlipped := true, isMatched := false }
    { id := "c0b", value := "X", isFlipped := true, isMatched := false }
    rfl rfl rfl

end Scrollio
